import Mathlib

/-!
Shallow embedding of the `memfs` in-memory filesystem (Go) and proofs about
the claims of its specification.

Modelling conventions:
* Go byte slices are `List Nat`; a read buffer is represented by its length
  (its initial contents are irrelevant to the code) together with the bytes
  the call copies into it.
* Go `int` offsets that can be negative are `Int`; a cursor stored in a
  handle is `Nat` (the code only ever stores non-negative positions: `Seek`,
  `ReadAt` and `WriteAt` reject negative values before storing).
* A Go call either returns a value, returns an error, or crashes with a
  runtime fault (nil dereference, out-of-range slice); the three outcomes
  are `GoRes.ok`, `GoRes.err`, `GoRes.crash`.
* `time.Now()` timestamps are modelled by the constant `0`; no claim
  depends on timestamp values.
-/

namespace Memfs

/-- Error kinds the memfs code distinguishes (io.EOF, fs.ErrInvalid,
fs.ErrNotExist, fs.ErrExist, fs.ErrClosed). -/
inductive GoErr where
  | eof
  | invalid
  | notExist
  | alreadyExists
  | closed
  deriving DecidableEq, Repr

/-- Outcome of a Go call: a normal value, an error value, or a runtime
crash (nil-pointer dereference or out-of-range slice). -/
inductive GoRes (α : Type) where
  | ok (val : α)
  | err (e : GoErr)
  | crash
  deriving DecidableEq, Repr

/- Open-file flag bits, with the values of Go's `os` package on linux. -/

def O_RDONLY : Nat := 0
def O_WRONLY : Nat := 1
def O_RDWR : Nat := 2
def O_CREATE : Nat := 64
def O_EXCL : Nat := 128
def O_TRUNC : Nat := 512
def O_APPEND : Nat := 1024

/-- `fileFlags.isSet`: `int(f)&mask == mask`. -/
def isSet (f mask : Nat) : Bool := f.land mask == mask

/-- `fileFlags.isReadOnly`: exact comparison with `os.O_RDONLY` (0). -/
def isReadOnly (f : Nat) : Bool := f == O_RDONLY

/-- `fileFlags.isWriteOnly`. -/
def isWriteOnly (f : Nat) : Bool := isSet f O_WRONLY

/-- `fileFlags.isReadWrite`. -/
def isReadWrite (f : Nat) : Bool := isSet f O_RDWR

/-- `fileFlags.canRead`. -/
def canRead (f : Nat) : Bool := isReadOnly f || isReadWrite f

/-- `fileFlags.canWrite`. -/
def canWrite (f : Nat) : Bool := isWriteOnly f || isReadWrite f

/-- `fileFlags.isAppend`. -/
def isAppend (f : Nat) : Bool := isSet f O_APPEND

/-- `fileFlags.isCreate`. -/
def isCreate (f : Nat) : Bool := isSet f O_CREATE

/-- `fileFlags.isCreateMustNotExist` (`os.O_EXCL`). -/
def isCreateMustNotExist (f : Nat) : Bool := isSet f O_EXCL

/-- `fileFlags.isTruncating` (`os.O_TRUNC`). -/
def isTruncating (f : Nat) : Bool := isSet f O_TRUNC

/-- `fsNode`: a tree node; `entries = none` for a file (nil map),
`entries = some l` for a directory, `l` an association list modelling the
Go map (keys unique in every reachable tree). -/
inductive FsNode where
  | mk (name : String) (perm : Nat) (modified : Nat) (content : List Nat)
      (entries : Option (List (String × FsNode))) (unlinked : Bool)

def FsNode.name : FsNode → String
  | .mk n _ _ _ _ _ => n

def FsNode.perm : FsNode → Nat
  | .mk _ p _ _ _ _ => p

def FsNode.modified : FsNode → Nat
  | .mk _ _ m _ _ _ => m

def FsNode.content : FsNode → List Nat
  | .mk _ _ _ c _ _ => c

def FsNode.entries : FsNode → Option (List (String × FsNode))
  | .mk _ _ _ _ e _ => e

def FsNode.unlinked : FsNode → Bool
  | .mk _ _ _ _ _ u => u

/-- `fsNode.isDir`: `f.entries != nil`. -/
def FsNode.isDir (f : FsNode) : Bool := f.entries.isSome

/-- The entries association list (empty for a file node). -/
def FsNode.entriesD (f : FsNode) : List (String × FsNode) := f.entries.getD []

/-- Map access `f.entries[s]`. -/
def FsNode.lookupEntry (f : FsNode) (s : String) : Option FsNode :=
  f.entriesD.lookup s

/-- Lexicographic string order by code point (for valid UTF-8 this agrees
with Go's byte-wise string order used by `sort.Strings`). -/
def strLeB : List Char → List Char → Bool
  | [], _ => true
  | _ :: _, [] => false
  | c :: cs, d :: ds =>
    if c.toNat < d.toNat then true
    else if d.toNat < c.toNat then false
    else strLeB cs ds

/-- Insertion into a sorted string list. -/
def insertSorted (s : String) : List String → List String
  | [] => [s]
  | t :: ts => if strLeB s.data t.data then s :: t :: ts else t :: insertSorted s ts

/-- `sort.Strings`: stable sort in increasing string order. -/
def sortStrings (l : List String) : List String := l.foldr insertSorted []

/-- `fsNode.getEntryNames`: the sorted key list of the entries map
(empty list for a non-directory). -/
def FsNode.entryNames (f : FsNode) : List String :=
  if f.isDir then sortStrings (f.entriesD.map Prod.fst) else []

def FsNode.withContent (f : FsNode) (c : List Nat) : FsNode :=
  match f with
  | .mk n p m _ e u => .mk n p m c e u

def FsNode.withEntries (f : FsNode) (es : List (String × FsNode)) : FsNode :=
  match f with
  | .mk n p m c _ u => .mk n p m c (some es) u

/-- Go map assignment `entries[s] = nd`: replace the binding if the key is
present, otherwise add it. -/
def setEntry (l : List (String × FsNode)) (s : String) (nd : FsNode) :
    List (String × FsNode) :=
  if l.any (fun e => e.1 == s) then
    l.map (fun e => if e.1 == s then (s, nd) else e)
  else l ++ [(s, nd)]

/-- Go map deletion `delete(entries, s)`. -/
def eraseEntry (l : List (String × FsNode)) (s : String) :
    List (String × FsNode) :=
  l.filter (fun e => e.1 != s)

/-- In the immutable tree model, apply an update to the node reached by a
segment path (identity when the path does not resolve; the callers only use
resolved paths). -/
def FsNode.updateAt (g : FsNode → FsNode) : List String → FsNode → FsNode
  | [], cur => g cur
  | s :: rest, cur =>
    match cur.lookupEntry s with
    | some child => cur.withEntries (setEntry cur.entriesD s (FsNode.updateAt g rest child))
    | none => cur

/-! ## Content engine (`contentReadWriteSeekerImpl`)

The engine state is a cursor over the owning node's content; the functions
below thread `(content, pos)` explicitly. -/

/-- `contentReadWriteSeekerImpl.read`: the locked core of `Read`/`ReadAt`.
Mirrors the source exactly: the end-of-data test compares the cursor with
the *buffer* length `len(p)`; the slice `content[pos:]` crashes when the
cursor exceeds the content length; otherwise `copy` transfers
`min(bufLen, content.length - pos)` bytes and the cursor advances by that
amount. Returns the copied bytes (their count is the returned `n`) and the
new cursor. -/
def crwsRead (content : List Nat) (pos bufLen : Nat) : GoRes (List Nat × Nat) :=
  if bufLen ≤ pos then .err .eof
  else if pos ≤ content.length then
    .ok ((content.drop pos).take bufLen, pos + min bufLen (content.length - pos))
  else .crash

/-- Go's `copy(dst, src)` as a value: the first `min (dst.length) (src.length)`
elements of `dst` replaced by those of `src`. -/
def copyInto (dst src : List Nat) : List Nat :=
  src.take dst.length ++ dst.drop src.length

/-- The grown buffer `make([]byte, l)` (zero-filled) after `copy(_, content)`. -/
def writeGrown (content : List Nat) (l : Nat) : List Nat :=
  copyInto (List.replicate l 0) content

/-- `contentReadWriteSeekerImpl.write`: the locked core of `Write`/`WriteAt`.
Returns the new content and the new cursor; the reported count is always
`p.length`. Both growth branches of the source allocate a zero-filled
buffer of length `pos + len(p)` and copy the old content in; otherwise the
write is in place. Then `copy(newContent[pos:], p)`. -/
def crwsWrite (content : List Nat) (pos : Nat) (p : List Nat) : List Nat × Nat :=
  let newContent :=
    if content.length ≤ pos then writeGrown content (pos + p.length)
    else if content.length < pos + p.length then writeGrown content (pos + p.length)
    else content
  (newContent.take pos ++ copyInto (newContent.drop pos) p, pos + p.length)

/-! ## File handles (`File`) -/

/-- `File`: an open handle. `hasCrws = false` models the nil
`contentReadWriteSeekerImpl` pointer of a handle that `OpenFile` built for
a directory; dereferencing it crashes. The node is embedded by value: each
theorem below is about one handle over its node. -/
structure File where
  node : FsNode
  flag : Nat
  hasCrws : Bool
  pos : Nat
  closed : Bool
  indexReadDir : Nat
  indexReaddir : Nat
  indexReaddirnames : Nat

/-- `FileInfo`: wraps a possibly-nil node pointer. -/
structure FileInfoV where
  node : Option FsNode

/-- `FileInfo.Name`: dereferences the node (crash when nil). -/
def FileInfoV.Name : FileInfoV → GoRes String
  | ⟨none⟩ => .crash
  | ⟨some nd⟩ => .ok nd.name

/-- `FileInfo.Size`: reads `node.unlinked` first (crash when nil); 0 for
directories and detached nodes. -/
def FileInfoV.Size : FileInfoV → GoRes Nat
  | ⟨none⟩ => .crash
  | ⟨some nd⟩ =>
    if !nd.unlinked then (if !nd.isDir then .ok nd.content.length else .ok 0)
    else .ok 0

/-- `FileInfo.Mode`. -/
def FileInfoV.Mode : FileInfoV → GoRes Nat
  | ⟨none⟩ => .crash
  | ⟨some nd⟩ => .ok nd.perm

/-- `FileInfo.ModTime`. -/
def FileInfoV.ModTime : FileInfoV → GoRes Nat
  | ⟨none⟩ => .crash
  | ⟨some nd⟩ => .ok nd.modified

/-- `FileInfo.IsDir`. -/
def FileInfoV.IsDir : FileInfoV → GoRes Bool
  | ⟨none⟩ => .crash
  | ⟨some nd⟩ => .ok nd.isDir

/-- `File.Stat`. -/
def File.Stat (f : File) : GoRes FileInfoV × File :=
  if f.node.unlinked then (.err .invalid, f) else (.ok ⟨some f.node⟩, f)

/-- `File.Close`. -/
def File.Close (f : File) : GoRes Unit × File :=
  if f.closed then (.err .closed, f) else (.ok (), { f with closed := true })

/-- `File.Read`: guard order as in the source (unlinked, readability,
closed), then `crws.Read`; a nil `crws` crashes on `lockContent`. -/
def File.Read (f : File) (bufLen : Nat) : GoRes (List Nat) × File :=
  if f.node.unlinked then (.err .invalid, f)
  else if !canRead f.flag then (.err .invalid, f)
  else if f.closed then (.err .closed, f)
  else if !f.hasCrws then (.crash, f)
  else
    match crwsRead f.node.content f.pos bufLen with
    | .ok (bytes, newPos) => (.ok bytes, { f with pos := newPos })
    | .err e => (.err e, f)
    | .crash => (.crash, f)

/-- `File.ReadAt`: as `Read`, except that `crws.ReadAt` rejects a negative
offset before touching the owner, then stores `pos := off` and runs the
read core (so the cursor is moved even when the read then signals EOF). -/
def File.ReadAt (f : File) (bufLen : Nat) (off : Int) : GoRes (List Nat) × File :=
  if f.node.unlinked then (.err .invalid, f)
  else if !canRead f.flag then (.err .invalid, f)
  else if f.closed then (.err .closed, f)
  else if off < 0 then (.err .invalid, f)
  else if !f.hasCrws then (.crash, f)
  else
    match crwsRead f.node.content off.toNat bufLen with
    | .ok (bytes, newPos) => (.ok bytes, { f with pos := newPos })
    | .err e => (.err e, { f with pos := off.toNat })
    | .crash => (.crash, { f with pos := off.toNat })

/-- `File.Seek` / `crws.Seek`: whence 0 = start, 1 = current, 2 = end
(anything else leaves the Go zero value 0); a negative result is rejected
without moving the cursor. -/
def File.Seek (f : File) (offset : Int) (whence : Nat) : GoRes Int × File :=
  if f.node.unlinked then (.err .invalid, f)
  else if f.closed then (.err .closed, f)
  else if !f.hasCrws then (.crash, f)
  else
    let newPos : Int :=
      if whence == 0 then offset
      else if whence == 1 then (f.pos : Int) + offset
      else if whence == 2 then (f.node.content.length : Int) + offset
      else 0
    if newPos < 0 then (.err .invalid, f)
    else (.ok newPos, { f with pos := newPos.toNat })

/-- `File.Write`. -/
def File.Write (f : File) (p : List Nat) : GoRes Nat × File :=
  if f.node.unlinked then (.err .invalid, f)
  else if !canWrite f.flag then (.err .invalid, f)
  else if f.closed then (.err .closed, f)
  else if !f.hasCrws then (.crash, f)
  else
    let r := crwsWrite f.node.content f.pos p
    (.ok p.length, { f with node := f.node.withContent r.1, pos := r.2 })

/-- `File.WriteAt`: additionally rejects handles opened with Append; then
`crws.WriteAt` rejects a negative offset, stores `pos := off` and runs the
write core. -/
def File.WriteAt (f : File) (p : List Nat) (off : Int) : GoRes Nat × File :=
  if f.node.unlinked then (.err .invalid, f)
  else if !canWrite f.flag then (.err .invalid, f)
  else if isAppend f.flag then (.err .invalid, f)
  else if f.closed then (.err .closed, f)
  else if off < 0 then (.err .invalid, f)
  else if !f.hasCrws then (.crash, f)
  else
    let r := crwsWrite f.node.content off.toNat p
    (.ok p.length, { f with node := f.node.withContent r.1, pos := r.2 })

/-! ## Paginated directory listings -/

/-- Shared pagination core of `ReadDir`/`Readdir`/`Readdirnames` for one
view index. First branch: `n < 0 || n >= len(names)` returns the *whole*
listing and leaves the index untouched. Otherwise Go slices
`names[idx:]` (crash when the index exceeds the length), returns the next
`n` items advancing the index when `n` is less than what remains, else
returns the remainder and resets the index to 0. -/
def listChunk (names : List String) (idx : Nat) (n : Int) : GoRes (List String × Nat) :=
  if n < 0 ∨ (names.length : Int) ≤ n then .ok (names, idx)
  else if names.length < idx then .crash
  else
    let rem := names.drop idx
    if n < (rem.length : Int) then .ok (rem.take n.toNat, idx + n.toNat)
    else .ok (rem, 0)

/-- `File.ReadDir`: the returned `DirEntry` values each wrap one child
node; they are represented here by the child's name. Uses the
`indexReadDir` view index. -/
def File.ReadDir (f : File) (n : Int) : GoRes (List String) × File :=
  if f.node.unlinked then (.err .invalid, f)
  else if f.closed then (.err .closed, f)
  else if !f.node.isDir then (.err .invalid, f)
  else
    match listChunk f.node.entryNames f.indexReadDir n with
    | .ok (res, idx) => (.ok res, { f with indexReadDir := idx })
    | .err e => (.err e, f)
    | .crash => (.crash, f)

/-- `File.Readdir`: the returned `FileInfo` values each wrap one child
node; they are represented here by the child's name. Uses the
`indexReaddir` view index. -/
def File.Readdir (f : File) (n : Int) : GoRes (List String) × File :=
  if f.node.unlinked then (.err .invalid, f)
  else if f.closed then (.err .closed, f)
  else if !f.node.isDir then (.err .invalid, f)
  else
    match listChunk f.node.entryNames f.indexReaddir n with
    | .ok (res, idx) => (.ok res, { f with indexReaddir := idx })
    | .err e => (.err e, f)
    | .crash => (.crash, f)

/-- `File.Readdirnames`: returns the names themselves, with the
`indexReaddirnames` view index. -/
def File.Readdirnames (f : File) (n : Int) : GoRes (List String) × File :=
  if f.node.unlinked then (.err .invalid, f)
  else if f.closed then (.err .closed, f)
  else if !f.node.isDir then (.err .invalid, f)
  else
    match listChunk f.node.entryNames f.indexReaddirnames n with
    | .ok (res, idx) => (.ok res, { f with indexReaddirnames := idx })
    | .err e => (.err e, f)
    | .crash => (.crash, f)

/-! ## Path resolution (`FS.getEntry`)

Absolute cleaned paths are represented by their segment lists (the empty
list is the root `/`): `FS.getAbsolutePath` (filepath.Abs + Clean) is the
common string-level preprocessing of every resolving operation and is
modelled by this segment representation. `FS.MkdirAll` below, which does
*not* use it, keeps its raw string input. -/

/-- The result triple of `FS.getEntry`: the resolved parent (identified by
its path from the root, so that the immutable model can update it), the
target node when present, and the missing suffix. As in the source, when
an *intermediate* directory is missing the suffix holds the remaining
parent-directory segments only (the final segment is dropped). -/
structure Resolved where
  parentPath : List String
  entry : Option FsNode
  missing : List String

/-- The walk of `FS.getEntry` over the parent-directory segments, with the
final segment `last` looked up at the end. `acc` is the path of the node
`cur` reached so far. A present intermediate segment that is not a
directory is an InvalidPath error. -/
def walkDirs (last : String) : List String → List String → FsNode → GoRes Resolved
  | acc, [], cur =>
    match cur.lookupEntry last with
    | some e => .ok ⟨acc, some e, []⟩
    | none => .ok ⟨acc, none, [last]⟩
  | acc, d :: ds, cur =>
    match cur.lookupEntry d with
    | some e => if e.isDir then walkDirs last (acc ++ [d]) ds e else .err .invalid
    | none => .ok ⟨acc, none, d :: ds⟩

/-- `FS.getEntry` on the segment list of the cleaned absolute path. The
root path returns the root as parent with no target and no missing suffix.
(The UTF-8 validity guard of the source cannot fire here: Lean strings are
always valid Unicode.) -/
def getEntry (root : FsNode) (segs : List String) : GoRes Resolved :=
  match segs with
  | [] => .ok ⟨[], none, []⟩
  | _ :: _ => walkDirs (segs.getLastD "") [] segs.dropLast root

/-! ## Store-level operations -/

/-- `FS.Stat`. -/
def FS.Stat (root : FsNode) (segs : List String) : GoRes FileInfoV :=
  match getEntry root segs with
  | .err e => .err e
  | .crash => .crash
  | .ok r =>
    if !r.missing.isEmpty then .err .notExist
    else .ok ⟨r.entry⟩

/-- Detaching a resolved entry: `delete(parentNode.entries, entryNode.name)`.
(The source also sets `entryNode.unlinked = true`; the detached node then
lives on only through already-open handles, whose view is the `File`
structure above, so the tree keeps no copy of it.) -/
def detach (root : FsNode) (parentPath : List String) (name : String) : FsNode :=
  FsNode.updateAt (fun par => par.withEntries (eraseEntry par.entriesD name))
    parentPath root

/-- `FS.Remove`. On the root path the resolved entry is nil and
`entryNode.isDir()` dereferences it (crash). -/
def FS.Remove (root : FsNode) (segs : List String) : GoRes FsNode :=
  match getEntry root segs with
  | .err e => .err e
  | .crash => .crash
  | .ok r =>
    if !r.missing.isEmpty then .err .notExist
    else
      match r.entry with
      | none => .crash
      | some e =>
        if e.isDir then
          if e.entriesD.length == 0 then .ok (detach root r.parentPath e.name)
          else .err .invalid
        else .ok (detach root r.parentPath e.name)

mutual

/-- `FS.RemoveAll`, with explicit fuel for the recursive calls of its
child loop (`fuel = 0` is unreachable from any positive fuel: the loop
only runs inside the branch whose guard says the directory has no
children). Structure follows the source: same resolution and checks as
`Remove`, and for an empty directory, after detaching it, a loop over its
(empty) entries map recursing into `path/name/part`. -/
def RemoveAllAux (fuel : Nat) (root : FsNode) (segs : List String) : GoRes FsNode :=
  match fuel with
  | 0 => .crash
  | fuel' + 1 =>
    match getEntry root segs with
    | .err e => .err e
    | .crash => .crash
    | .ok r =>
      if !r.missing.isEmpty then .err .notExist
      else
        match r.entry with
        | none => .crash
        | some e =>
          if e.isDir then
            if e.entriesD.length == 0 then
              removeAllLoop fuel' (segs ++ [e.name]) (e.entriesD.map Prod.fst)
                (detach root r.parentPath e.name)
            else .err .invalid
          else .ok (detach root r.parentPath e.name)

/-- The child loop of `FS.RemoveAll`: `for part := range entryNode.entries`
with `_ = f.RemoveAll(filepath.Join(path, entryNode.name, part))` — the
error of the recursive call is discarded (a failing recursive call leaves
the tree unchanged, since every error of `RemoveAll` precedes mutation). -/
def removeAllLoop (fuel : Nat) (base : List String) (parts : List String)
    (t : FsNode) : GoRes FsNode :=
  match parts with
  | [] => .ok t
  | part :: rest =>
    match RemoveAllAux fuel t (base ++ [part]) with
    | .ok t2 => removeAllLoop fuel base rest t2
    | .err _ => removeAllLoop fuel base rest t
    | .crash => .crash

end

/-- `FS.RemoveAll` (the fuel bound is irrelevant: the child loop is proved
below to never run). -/
def FS.RemoveAll (root : FsNode) (segs : List String) : GoRes FsNode :=
  RemoveAllAux 1000000 root segs

/-- `FS.Mkdir`. -/
def FS.Mkdir (root : FsNode) (segs : List String) (perm : Nat) : GoRes FsNode :=
  match getEntry root segs with
  | .err e => .err e
  | .crash => .crash
  | .ok r =>
    if r.entry.isNone && r.missing.isEmpty then .ok root
    else if r.entry.isSome then .err .alreadyExists
    else if 1 < r.missing.length then .err .notExist
    else
      let name := r.missing.headD ""
      .ok (FsNode.updateAt
        (fun par => par.withEntries
          (setEntry par.entriesD name (.mk name perm 0 [] (some []) false)))
        r.parentPath root)

/-- The creating walk of `FS.MkdirAll` over the raw split segments; returns
the error (if any) together with the tree as mutated so far (the source
mutates in place, so directories created before a failure remain). -/
def mkdirAllWalk (perm : Nat) : List String → FsNode → Option GoErr × FsNode
  | [], cur => (none, cur)
  | part :: rest, cur =>
    match cur.lookupEntry part with
    | some e =>
      if !e.isDir then (some .invalid, cur)
      else
        let r := mkdirAllWalk perm rest e
        (r.1, cur.withEntries (setEntry cur.entriesD part r.2))
    | none =>
      let r := mkdirAllWalk perm rest (.mk part perm 0 [] (some []) false)
      (r.1, cur.withEntries (setEntry cur.entriesD part r.2))

/-- Go's `strings.Split(s, sep)` for a one-character separator, on the
character list: the empty string yields one empty segment. -/
def splitSep (sep : Char) : List Char → List (List Char)
  | [] => [[]]
  | c :: rest =>
    let r := splitSep sep rest
    if c == sep then [] :: r
    else
      match r with
      | [] => [[c]]
      | g :: gs => (c :: g) :: gs

/-- `strings.Split(path, string(filepath.Separator))` as a string list. -/
def splitPath (path : String) : List String :=
  (splitSep '/' path.data).map (fun g => ⟨g⟩)

/-- `FS.MkdirAll`: operates on the *raw* path string — no absolutization,
no cleaning — split on the separator; the first split segment must be
empty, and a single-segment split returns early with no error. (The UTF-8
validity guard cannot fire on Lean strings.) Returns the error (if any)
and the resulting tree. -/
def FS.MkdirAll (root : FsNode) (path : String) (perm : Nat) : Option GoErr × FsNode :=
  let parts := splitPath path
  if parts.length == 0 || parts.headD "" != "" then (some .invalid, root)
  else if parts.length == 1 then (none, root)
  else mkdirAllWalk perm parts.tail root

/-- A fresh handle on a node, as `OpenFile` builds it: `withCrws = false`
models the directory case, where the `crws` field is left nil. -/
def mkHandle (nd : FsNode) (flag : Nat) (withCrws : Bool) (pos : Nat) : File :=
  { node := nd, flag := flag, hasCrws := withCrws, pos := pos, closed := false,
    indexReadDir := 0, indexReaddir := 0, indexReaddirnames := 0 }

/-- `FS.OpenFile`: returns the handle and the resulting tree. Mirrors the
source: a missing suffix of more than one segment is NotExist; an existing
directory yields a handle with a nil content engine; an existing file with
write intent honors Excl/Trunc/Append; an absent target is NotExist for
read-only, created under the resolved parent (named by the missing
suffix — the empty string for the root path) when Create is set, and
InvalidPath otherwise. -/
def FS.OpenFile (root : FsNode) (segs : List String) (flag perm : Nat) :
    GoRes (File × FsNode) :=
  match getEntry root segs with
  | .err e => .err e
  | .crash => .crash
  | .ok r =>
    if 1 < r.missing.length then .err .notExist
    else
      match r.entry with
      | some e =>
        if e.isDir then .ok (mkHandle e flag false 0, root)
        else if canWrite flag then
          if isCreate flag && isCreateMustNotExist flag then .err .alreadyExists
          else if isTruncating flag then
            let e2 := e.withContent []
            .ok (mkHandle e2 flag true 0,
              FsNode.updateAt
                (fun par => par.withEntries (setEntry par.entriesD e.name e2))
                r.parentPath root)
          else if isAppend flag then
            .ok (mkHandle e flag true e.content.length, root)
          else .ok (mkHandle e flag true 0, root)
        else .ok (mkHandle e flag true 0, root)
      | none =>
        if isReadOnly flag then .err .notExist
        else if isCreate flag then
          let name := r.missing.headD ""
          let e2 : FsNode := .mk name perm 0 [] none false
          .ok (mkHandle e2 flag true 0,
            FsNode.updateAt
              (fun par => par.withEntries (setEntry par.entriesD name e2))
              r.parentPath root)
        else .err .invalid

/-- The flag bits of `FS.Create`: `O_RDWR|O_CREATE|O_TRUNC`. -/
def createFlagBits : Nat := (O_RDWR.lor O_CREATE).lor O_TRUNC

/-- `FS.Create`. -/
def FS.Create (root : FsNode) (segs : List String) : GoRes (File × FsNode) :=
  FS.OpenFile root segs createFlagBits 438

/-! ## Temporary name allocation

The random-name source (`randomString`, seeded from the clock) is made
explicit: the candidate random strings the generator would produce are an
input list, consumed one per loop iteration. An exhausted list marks the
state where the Go loop would spin forever. -/

/-- `strings.Replace(s, "*", rand, -1)`: replace every `*`. -/
def replaceStar (rand : String) : List Char → List Char
  | [] => []
  | c :: rest =>
    if c == '*' then rand.data ++ replaceStar rand rest
    else c :: replaceStar rand rest

/-- `FS.createRandomPathPart`: append a `*` when the pattern has none, then
replace every `*` by the generated random string. -/
def createRandomPathPart (pattern rand : String) : String :=
  let p := if !pattern.data.contains '*' then pattern ++ "*" else pattern
  ⟨replaceStar rand p.data⟩

/-- The retry loop of `FS.CreateTemp`: `for err != nil { file, err = f.Create(...) }`. -/
def createTempLoop (root : FsNode) (dir : List String) (pattern : String) :
    List String → GoRes (FsNode × String)
  | [] => .crash
  | rand :: rest =>
    let name := createRandomPathPart pattern rand
    match FS.Create root (dir ++ [name]) with
    | .ok (_, t2) => .ok (t2, name)
    | .err _ => createTempLoop root dir pattern rest
    | .crash => .crash

/-- `FS.CreateTemp` (with the target directory already non-empty — the
empty-string default to the temp dir is taken by the caller). Returns the
resulting tree and the generated leaf name. -/
def FS.CreateTemp (root : FsNode) (dir : List String) (pattern : String)
    (rands : List String) : GoRes (FsNode × String) :=
  match getEntry root dir with
  | .err e => .err e
  | .crash => .crash
  | .ok r =>
    match r.entry with
    | none => .err .notExist
    | some e =>
      if !e.isDir then .err .notExist
      else createTempLoop root dir pattern rands

/-- The retry loop of `FS.MkdirTemp`: `for err != nil { err = f.Mkdir(tDir, fs.ModePerm) }`. -/
def mkdirTempLoop (root : FsNode) (dir : List String) (pattern : String) :
    List String → GoRes (FsNode × String)
  | [] => .crash
  | rand :: rest =>
    let name := createRandomPathPart pattern rand
    match FS.Mkdir root (dir ++ [name]) 511 with
    | .ok t2 => .ok (t2, name)
    | .err _ => mkdirTempLoop root dir pattern rest
    | .crash => .crash

/-- `FS.MkdirTemp`. Returns the resulting tree and the generated leaf name
(the source returns the joined path `dir/name`). -/
def FS.MkdirTemp (root : FsNode) (dir : List String) (pattern : String)
    (rands : List String) : GoRes (FsNode × String) :=
  match getEntry root dir with
  | .err e => .err e
  | .crash => .crash
  | .ok r =>
    match r.entry with
    | none => .err .notExist
    | some e =>
      if !e.isDir then .err .notExist
      else mkdirTempLoop root dir pattern rands

/-- The `/tmp` node seeded by `New`. -/
def tmpNode : FsNode := .mk "tmp" 511 0 [] (some []) false

/-- The root tree of `New` before the working-directory seeding. -/
def rootBase : FsNode := .mk "" 511 0 [] (some [("tmp", tmpNode)]) false

/-- `New`: seeds the temp directory, then `MkdirAll` of the process working
directory (taken here as a parameter), discarding its error. -/
def FS.New (cwd : String) : FsNode := (FS.MkdirAll rootBase cwd 511).2

/-! ## Concrete instances used by the theorems below -/

/-- A handle over a fresh plain file node with the given content, flags and
cursor. -/
def fileHandle (content : List Nat) (flag : Nat) (pos : Nat) : File :=
  { node := .mk "f" 438 0 content none false, flag := flag, hasCrws := true,
    pos := pos, closed := false, indexReadDir := 0, indexReaddir := 0,
    indexReaddirnames := 0 }

/-- A plain empty file node. -/
def leafFile (s : String) : FsNode := .mk s 438 0 [] none false

/-- An open handle on a two-entry directory whose three listing views each
have one entry already consumed (index 1). -/
def dirHandle2 : File :=
  { node := .mk "d" 511 0 [] (some [("a", leafFile "a"), ("b", leafFile "b")]) false,
    flag := 0, hasCrws := false, pos := 0, closed := false,
    indexReadDir := 1, indexReaddir := 1, indexReaddirnames := 1 }

/-- A handle whose node has been detached by `Remove` (unlinked set). -/
def unlinkedHandle : File :=
  { node := .mk "u" 438 0 [1, 2] none true, flag := 2, hasCrws := true,
    pos := 0, closed := false, indexReadDir := 0, indexReaddir := 0,
    indexReaddirnames := 0 }

/-- The file `CreateTemp` makes from pattern `"x"` and random string
`"aaaaaaaa"`. -/
def c6File : FsNode := .mk "xaaaaaaaa" 438 0 [] none false

def c6Tmp1 : FsNode := .mk "tmp" 511 0 [] (some [("xaaaaaaaa", c6File)]) false

/-- `rootBase` after `CreateTemp` created `/tmp/xaaaaaaaa`. -/
def c6Tree1 : FsNode := .mk "" 511 0 [] (some [("tmp", c6Tmp1)]) false

/-- The directory `MkdirTemp` makes on its second attempt. -/
def c6Dir : FsNode := .mk "xbbbbbbbb" 511 0 [] (some []) false

def c6Tmp2 : FsNode :=
  .mk "tmp" 511 0 [] (some [("xaaaaaaaa", c6File), ("xbbbbbbbb", c6Dir)]) false

/-- `c6Tree1` after `MkdirTemp` added `/tmp/xbbbbbbbb`. -/
def c6Tree2 : FsNode := .mk "" 511 0 [] (some [("tmp", c6Tmp2)]) false

/-! ## Theorems -/

/-- C1: the claim says `Read` yields end-of-data with zero bytes copied iff
the cursor is at or past the content length, else copies
`min(content length - cursor, len(buf))` bytes. The code instead compares
the cursor with the *buffer* length: on an empty file a 1-byte read
returns success with zero bytes copied and no end-of-data signal; with a
3-byte content, cursor 1 and a 1-byte buffer it signals end-of-data even
though 2 bytes remain; and with the cursor past the content length but
below the buffer length the slice `content[pos:]` crashes. -/
theorem c1_read_end_check_uses_buffer_length :
    File.Read (fileHandle [] 0 0) 1 = (.ok [], fileHandle [] 0 0) ∧
    File.Read (fileHandle [1, 2, 3] 0 1) 1 = (.err .eof, fileHandle [1, 2, 3] 0 1) ∧
    File.Read (fileHandle [7] 0 3) 9 = (.crash, fileHandle [7] 0 3) := by
  exact ⟨rfl, rfl, rfl⟩

/-- C2: the claim says every content operation on a directory handle
returns an error. `OpenFile` on the existing directory `/tmp` yields a
handle whose content engine is nil, and `Read`, `ReadAt` (at a
non-negative offset) and `Seek` on it crash with a nil dereference instead
of returning an error; only the write-permission guard makes `Write`
return an error on this read-only handle. -/
theorem c2_dir_handle_read_and_seek_crash :
    FS.OpenFile rootBase ["tmp"] O_RDONLY 0 = .ok (mkHandle tmpNode O_RDONLY false 0, rootBase) ∧
    File.Read (mkHandle tmpNode O_RDONLY false 0) 1 = (.crash, mkHandle tmpNode O_RDONLY false 0) ∧
    File.ReadAt (mkHandle tmpNode O_RDONLY false 0) 1 0 = (.crash, mkHandle tmpNode O_RDONLY false 0) ∧
    File.Seek (mkHandle tmpNode O_RDONLY false 0) 0 0 = (.crash, mkHandle tmpNode O_RDONLY false 0) ∧
    File.Write (mkHandle tmpNode O_RDONLY false 0) [1] = (.err .invalid, mkHandle tmpNode O_RDONLY false 0) := by
  exact ⟨rfl, rfl, rfl, rfl, rfl⟩

/-- C9: `Stat` of the root path succeeds with a `FileInfo` whose node
pointer is nil — for every tree — and each metadata method on that value
dereferences the nil node (crash), although the root of the seeded store
is a directory that exists. -/
theorem c9_stat_root_returns_nil_node :
    (∀ root : FsNode, FS.Stat root [] = .ok ⟨none⟩) ∧
    FileInfoV.Name ⟨none⟩ = .crash ∧
    FileInfoV.Size ⟨none⟩ = .crash ∧
    FileInfoV.Mode ⟨none⟩ = .crash ∧
    FileInfoV.ModTime ⟨none⟩ = .crash ∧
    FileInfoV.IsDir ⟨none⟩ = .crash ∧
    rootBase.isDir = true := by
  exact ⟨fun _ => rfl, rfl, rfl, rfl, rfl, rfl, rfl⟩

/-- C10: the claim (and the repository's own test) says every relative
path fails InvalidPath. The empty path is relative, yet `MkdirAll ""`
succeeds as a no-op, because `strings.Split` gives a single empty segment
that passes the leading-separator check and hits the early return;
non-empty relative paths do fail InvalidPath. -/
theorem c10_mkdirAll_accepts_empty_path :
    FS.MkdirAll rootBase "" 511 = (none, rootBase) ∧
    FS.MkdirAll rootBase "a" 511 = (some .invalid, rootBase) ∧
    FS.MkdirAll rootBase "a/b" 511 = (some .invalid, rootBase) := by
  exact ⟨rfl, rfl, rfl⟩

/-- C6: the claim says `CreateTemp` retries name generation on collision so
consecutive calls yield distinct names. With a generator that repeats the
random string `"aaaaaaaa"`, two consecutive `CreateTemp` calls on `/tmp`
with pattern `"x"` both return the name `"xaaaaaaaa"` — the second call's
`Create` silently truncates the existing file instead of failing, so the
retry loop never retries. `MkdirTemp`, whose `Mkdir` does fail on an
existing name, skips the colliding candidate and produces a fresh name. -/
theorem c6_createTemp_repeats_name_on_collision :
    FS.CreateTemp rootBase ["tmp"] "x" ["aaaaaaaa"] = .ok (c6Tree1, "xaaaaaaaa") ∧
    FS.CreateTemp c6Tree1 ["tmp"] "x" ["aaaaaaaa"] = .ok (c6Tree1, "xaaaaaaaa") ∧
    FS.MkdirTemp c6Tree1 ["tmp"] "x" ["aaaaaaaa", "bbbbbbbb"] = .ok (c6Tree2, "xbbbbbbbb") := by
  exact ⟨rfl, rfl, rfl⟩

/-- The grown buffer is the old content followed by zeros. -/
theorem writeGrown_eq (c : List Nat) (l : Nat) (hl : c.length ≤ l) :
    writeGrown c l = c ++ List.replicate (l - c.length) 0 := by
  unfold writeGrown copyInto
  rw [List.length_replicate, List.take_of_length_le hl, List.drop_replicate]

/-- The two growth branches of `crwsWrite`, evaluated. -/
theorem crwsWrite_grow (c : List Nat) (pos : Nat) (p : List Nat)
    (hcl : c.length ≤ pos + p.length) :
    (writeGrown c (pos + p.length)).take pos ++
        copyInto ((writeGrown c (pos + p.length)).drop pos) p =
      c.take pos ++ List.replicate (pos - c.length) 0 ++ p ++
        c.drop (pos + p.length) := by
  rw [writeGrown_eq c (pos + p.length) hcl]
  have hlen : (c ++ List.replicate (pos + p.length - c.length) 0).length
      = pos + p.length := by
    simp only [List.length_append, List.length_replicate]; omega
  have htake : (c ++ List.replicate (pos + p.length - c.length) 0).take pos
      = c.take pos ++ List.replicate (pos - c.length) 0 := by
    rw [List.take_append_eq_append_take, List.take_replicate]
    congr 1
    congr 1
    omega
  have hdroplen : ((c ++ List.replicate (pos + p.length - c.length) 0).drop pos).length
      = p.length := by
    rw [List.length_drop, hlen]; omega
  unfold copyInto
  rw [htake, hdroplen, List.take_length, List.drop_drop]
  rw [List.drop_of_length_le
        (by simp only [List.length_append, List.length_replicate]; omega),
      List.drop_of_length_le hcl]
  simp

/-- `crwsWrite`, characterized: the content becomes the prefix before the
cursor, a zero gap when the cursor was past the end, the written bytes,
and the old suffix past the written range; the cursor advances by the
written length. -/
theorem crwsWrite_eq (c : List Nat) (pos : Nat) (p : List Nat) :
    crwsWrite c pos p =
      (c.take pos ++ List.replicate (pos - c.length) 0 ++ p ++
         c.drop (pos + p.length),
       pos + p.length) := by
  unfold crwsWrite
  by_cases h1 : c.length ≤ pos
  · simp only [if_pos h1]
    exact congrArg (fun x => (x, pos + p.length)) (crwsWrite_grow c pos p (by omega))
  · simp only [if_neg h1]
    by_cases h2 : c.length < pos + p.length
    · simp only [if_pos h2]
      exact congrArg (fun x => (x, pos + p.length)) (crwsWrite_grow c pos p (by omega))
    · simp only [if_neg h2]
      have hppos : pos + p.length ≤ c.length := by omega
      have hz : pos - c.length = 0 := by omega
      unfold copyInto
      have hp : p.take (c.drop pos).length = p := by
        apply List.take_of_length_le
        rw [List.length_drop]; omega
      rw [hp, List.drop_drop, hz]
      simp

/-- `File.Write` on an open writable handle, evaluated (shared by the
write-rule claims). -/
theorem write_eval (f : File) (p : List Nat)
    (hw : canWrite f.flag = true) (hu : f.node.unlinked = false)
    (hc : f.closed = false) (hcr : f.hasCrws = true) :
    File.Write f p =
      (.ok p.length,
       { f with
           node := f.node.withContent
             (f.node.content.take f.pos ++
              List.replicate (f.pos - f.node.content.length) 0 ++ p ++
              f.node.content.drop (f.pos + p.length)),
           pos := f.pos + p.length }) := by
  simp [File.Write, hu, hw, hc, hcr, crwsWrite_eq]

/-- C7: `Write` writes at the cursor with sparse zero-fill growth:
the new content is the old prefix before the cursor, a zero gap when the
cursor was past the old length, the written bytes, then the old suffix
past the written range; the cursor advances by `len(buf)` and the
reported count is `len(buf)`. (The spec's concrete example is the
witness below.) -/
theorem c7_write_sparse_growth (f : File) (p : List Nat)
    (hw : canWrite f.flag = true) (hu : f.node.unlinked = false)
    (hc : f.closed = false) (hcr : f.hasCrws = true) :
    File.Write f p =
      (.ok p.length,
       { f with
           node := f.node.withContent
             (f.node.content.take f.pos ++
              List.replicate (f.pos - f.node.content.length) 0 ++ p ++
              f.node.content.drop (f.pos + p.length)),
           pos := f.pos + p.length }) :=
  write_eval f p hw hu hc hcr

/-- Witness for C7, and the spec's own sparse-write example: writing byte
88 at cursor 5 into the 2-byte file `[10, 20]` yields
`[10, 20, 0, 0, 0, 88]`, reporting 1 byte written, cursor 6. -/
theorem c7_write_sparse_growth_witness :
    File.Write (fileHandle [10, 20] 2 5) [88] =
      (.ok 1,
       { node := .mk "f" 438 0 [10, 20, 0, 0, 0, 88] none false, flag := 2,
         hasCrws := true, pos := 6, closed := false, indexReadDir := 0,
         indexReaddir := 0, indexReaddirnames := 0 }) :=
  c7_write_sparse_growth (fileHandle [10, 20] 2 5) [88] rfl rfl rfl rfl

/-- C3 counterexample: the claim says `WriteAt` leaves the cursor where it
was. On a writable non-append handle with cursor 0, `WriteAt` of one byte
at offset 2 leaves the cursor at 3, not 0. -/
theorem c3_writeat_cursor_counterexample :
    ¬ (File.WriteAt (fileHandle [] 2 0) [65] 2).2.pos = (fileHandle [] 2 0).pos := by
  decide

/-- C3 amended: for a writable handle without the Append flag and a
non-negative offset, `WriteAt(buf, off)` is exactly `Write` performed at
cursor position `off` — same growth/overwrite rule — and it *moves* the
handle's cursor to `off + len(buf)`. -/
theorem c3_writeat_is_write_at_offset (f : File) (p : List Nat) (off : Int)
    (hw : canWrite f.flag = true) (ha : isAppend f.flag = false)
    (hu : f.node.unlinked = false) (hc : f.closed = false)
    (hcr : f.hasCrws = true) (hoff : 0 ≤ off) :
    File.WriteAt f p off = File.Write { f with pos := off.toNat } p ∧
    (File.WriteAt f p off).2.pos = off.toNat + p.length := by
  have hneg : ¬ off < 0 := not_lt.mpr hoff
  have h1 : File.WriteAt f p off = File.Write { f with pos := off.toNat } p := by
    simp [File.WriteAt, File.Write, hu, hw, ha, hc, hcr, hneg]
  refine ⟨h1, ?_⟩
  rw [h1, write_eval { f with pos := off.toNat } p hw hu hc hcr]

/-- Witness for the amended C3. -/
theorem c3_writeat_is_write_at_offset_witness :
    File.WriteAt (fileHandle [1] 2 0) [5] 1 =
        File.Write { fileHandle [1] 2 0 with pos := 1 } [5] ∧
    (File.WriteAt (fileHandle [1] 2 0) [5] 1).2.pos = 2 :=
  c3_writeat_is_write_at_offset (fileHandle [1] 2 0) [5] 1 rfl rfl rfl rfl rfl
    (by decide)

/-- C8: once a handle's node is detached (unlinked), every operation —
Read, ReadAt, Write, WriteAt, Seek, Stat, ReadDir, Readdir,
Readdirnames — fails with an error, while `Close` on a not-yet-closed
handle still succeeds. -/
theorem c8_detached_handle_ops_fail (f : File) (bufLen : Nat) (p : List Nat)
    (off offset n : Int) (whence : Nat) (hu : f.node.unlinked = true) :
    (File.Read f bufLen).1 = .err .invalid ∧
    (File.ReadAt f bufLen off).1 = .err .invalid ∧
    (File.Write f p).1 = .err .invalid ∧
    (File.WriteAt f p off).1 = .err .invalid ∧
    (File.Seek f offset whence).1 = .err .invalid ∧
    (File.Stat f).1 = .err .invalid ∧
    (File.ReadDir f n).1 = .err .invalid ∧
    (File.Readdir f n).1 = .err .invalid ∧
    (File.Readdirnames f n).1 = .err .invalid ∧
    (f.closed = false → File.Close f = (.ok (), { f with closed := true })) := by
  refine ⟨?_, ?_, ?_, ?_, ?_, ?_, ?_, ?_, ?_, fun hc => ?_⟩ <;>
    simp [File.Read, File.ReadAt, File.Write, File.WriteAt, File.Seek,
      File.Stat, File.ReadDir, File.Readdir, File.Readdirnames, File.Close,
      hu, *]

/-- Witness for C8 on a concrete detached handle. -/
theorem c8_detached_handle_ops_fail_witness :
    (File.Read unlinkedHandle 1).1 = .err .invalid ∧
    (File.ReadAt unlinkedHandle 1 0).1 = .err .invalid ∧
    (File.Write unlinkedHandle [1]).1 = .err .invalid ∧
    (File.WriteAt unlinkedHandle [1] 0).1 = .err .invalid ∧
    (File.Seek unlinkedHandle 0 0).1 = .err .invalid ∧
    (File.Stat unlinkedHandle).1 = .err .invalid ∧
    (File.ReadDir unlinkedHandle 1).1 = .err .invalid ∧
    (File.Readdir unlinkedHandle 1).1 = .err .invalid ∧
    (File.Readdirnames unlinkedHandle 1).1 = .err .invalid ∧
    (unlinkedHandle.closed = false →
      File.Close unlinkedHandle = (.ok (), { unlinkedHandle with closed := true })) :=
  c8_detached_handle_ops_fail unlinkedHandle 1 [1] 0 0 1 0 rfl

/-- C4 counterexample: the claim says that for `n < 0` the call returns the
remaining unread entries and resets the view's index to 0. On a two-entry
directory handle whose `Readdirnames` view has index 1 (one entry
remaining, namely `["b"]`), `Readdirnames(-1)` would then have to return
`["b"]` with index 0 — but the code returns the whole listing
`["a", "b"]` and leaves the index at 1. -/
theorem c4_counterexample :
    ¬ ((File.Readdirnames dirHandle2 (-1)).1 = .ok ["b"] ∧
       (File.Readdirnames dirHandle2 (-1)).2.indexReaddirnames = 0) := by
  decide

/-- The pagination core, characterized (for a view index within bounds):
`n < 0` or `n ≥ total` returns the *whole* listing with the index
unchanged; otherwise `n ≥ remaining` returns the remainder and resets the
index to 0; otherwise the next `n` entries are returned and the index
advances by `n`. -/
theorem listChunk_spec (names : List String) (idx : Nat) (n : Int)
    (h : idx ≤ names.length) :
    listChunk names idx n =
      if n < 0 ∨ (names.length : Int) ≤ n then .ok (names, idx)
      else if (names.length : Int) - idx ≤ n then .ok (names.drop idx, 0)
      else .ok ((names.drop idx).take n.toNat, idx + n.toNat) := by
  unfold listChunk
  rcases Decidable.em (n < 0 ∨ (names.length : Int) ≤ n) with h1 | h1
  · rw [if_pos h1, if_pos h1]
  · rw [if_neg h1, if_neg h1, if_neg (by omega : ¬ names.length < idx)]
    have hlen : ((names.drop idx).length : Int) = (names.length : Int) - (idx : Int) := by
      rw [List.length_drop, Nat.cast_sub h]
    rcases Decidable.em ((names.length : Int) - (idx : Int) ≤ n) with h2 | h2
    · rw [if_pos h2, if_neg (by omega : ¬ n < ((names.drop idx).length : Int))]
    · rw [if_neg h2, if_pos (by omega : n < ((names.drop idx).length : Int))]

/-- C4 amended: for an open handle on a directory (each view index within
the listing's bounds), each listing view behaves as follows — if `n < 0`
or `n` is at least the *total* entry count, the call returns the whole
listing and leaves that view's index unchanged; otherwise, if `n` is at
least the remaining unread count, it returns the remaining entries and
resets that view's index to 0; otherwise it returns the next `n` entries
and advances that view's index by `n`. -/
theorem c4_listing_pagination (f : File) (n : Int)
    (hu : f.node.unlinked = false) (hc : f.closed = false)
    (hd : f.node.isDir = true)
    (h1 : f.indexReaddirnames ≤ f.node.entryNames.length)
    (h2 : f.indexReadDir ≤ f.node.entryNames.length)
    (h3 : f.indexReaddir ≤ f.node.entryNames.length) :
    (File.Readdirnames f n =
      if n < 0 ∨ (f.node.entryNames.length : Int) ≤ n then
        (.ok f.node.entryNames, f)
      else if (f.node.entryNames.length : Int) - f.indexReaddirnames ≤ n then
        (.ok (f.node.entryNames.drop f.indexReaddirnames),
         { f with indexReaddirnames := 0 })
      else
        (.ok ((f.node.entryNames.drop f.indexReaddirnames).take n.toNat),
         { f with indexReaddirnames := f.indexReaddirnames + n.toNat })) ∧
    (File.ReadDir f n =
      if n < 0 ∨ (f.node.entryNames.length : Int) ≤ n then
        (.ok f.node.entryNames, f)
      else if (f.node.entryNames.length : Int) - f.indexReadDir ≤ n then
        (.ok (f.node.entryNames.drop f.indexReadDir),
         { f with indexReadDir := 0 })
      else
        (.ok ((f.node.entryNames.drop f.indexReadDir).take n.toNat),
         { f with indexReadDir := f.indexReadDir + n.toNat })) ∧
    (File.Readdir f n =
      if n < 0 ∨ (f.node.entryNames.length : Int) ≤ n then
        (.ok f.node.entryNames, f)
      else if (f.node.entryNames.length : Int) - f.indexReaddir ≤ n then
        (.ok (f.node.entryNames.drop f.indexReaddir),
         { f with indexReaddir := 0 })
      else
        (.ok ((f.node.entryNames.drop f.indexReaddir).take n.toNat),
         { f with indexReaddir := f.indexReaddir + n.toNat })) := by
  have hnu : ¬ f.node.unlinked = true := by simp [hu]
  have hnc : ¬ f.closed = true := by simp [hc]
  have hnd : ¬ (!f.node.isDir) = true := by simp [hd]
  refine ⟨?_, ?_, ?_⟩
  · rw [File.Readdirnames, if_neg hnu, if_neg hnc, if_neg hnd,
      listChunk_spec _ _ _ h1]
    split_ifs <;> rfl
  · rw [File.ReadDir, if_neg hnu, if_neg hnc, if_neg hnd,
      listChunk_spec _ _ _ h2]
    split_ifs <;> rfl
  · rw [File.Readdir, if_neg hnu, if_neg hnc, if_neg hnd,
      listChunk_spec _ _ _ h3]
    split_ifs <;> rfl

/-- Witness for the amended C4, on the concrete two-entry directory handle
with one entry consumed: `Readdirnames 1` lands in the reset branch. -/
theorem c4_listing_pagination_witness :
    File.Readdirnames dirHandle2 1 =
      (.ok ["b"], { dirHandle2 with indexReaddirnames := 0 }) := by
  have h := (c4_listing_pagination dirHandle2 1 rfl rfl rfl (by decide)
    (by decide) (by decide)).1
  rw [h, if_neg (by decide), if_pos (by decide)]
  rfl

/-- The child loop of `RemoveAll` over an empty entries map does
nothing. -/
theorem removeAllLoop_nil (fuel : Nat) (base : List String) (t : FsNode) :
    removeAllLoop fuel base [] t = .ok t := by
  simp [removeAllLoop]

/-- `RemoveAllAux` with any positive fuel equals `Remove`: the recursive
child loop only runs under the guard that the directory has no entries,
so it always iterates over the empty list. -/
theorem removeAllAux_succ (fuel : Nat) (root : FsNode) (segs : List String) :
    RemoveAllAux (fuel + 1) root segs = FS.Remove root segs := by
  cases hge : getEntry root segs with
  | err e => simp [RemoveAllAux, FS.Remove, hge]
  | crash => simp [RemoveAllAux, FS.Remove, hge]
  | ok r =>
    cases hre : r.entry with
    | none => simp [RemoveAllAux, FS.Remove, hge, hre]
    | some e =>
      by_cases hd : e.isDir
      · cases hent : e.entriesD with
        | nil => simp [RemoveAllAux, FS.Remove, hge, hre, hd, hent, removeAllLoop]
        | cons x xs => simp [RemoveAllAux, FS.Remove, hge, hre, hd, hent]
      · simp [RemoveAllAux, FS.Remove, hge, hre, hd]

/-- C5: `RemoveAll(path)` behaves identically to `Remove(path)` on every
starting tree — same resulting tree and same error — and `Remove` (hence
both) detaches a resolved file unconditionally while a resolved directory
is detached only when it has no children, failing InvalidPath
("directory not empty") otherwise. -/
theorem c5_removeAll_eq_remove :
    (∀ (root : FsNode) (segs : List String),
      FS.RemoveAll root segs = FS.Remove root segs) ∧
    (∀ (root : FsNode) (segs : List String) (r : Resolved) (e : FsNode),
      getEntry root segs = .ok r → r.missing = [] → r.entry = some e →
      FS.Remove root segs =
        if e.isDir then
          (if e.entriesD.length = 0 then .ok (detach root r.parentPath e.name)
           else .err .invalid)
        else .ok (detach root r.parentPath e.name)) := by
  constructor
  · intro root segs
    have h : (1000000 : Nat) = 999999 + 1 := by norm_num
    rw [FS.RemoveAll, h, removeAllAux_succ]
  · intro root segs r e hge hm he
    by_cases hd : e.isDir
    · cases hent : e.entriesD with
      | nil => simp [FS.Remove, hge, hm, he, hd, hent]
      | cons x xs => simp [FS.Remove, hge, hm, he, hd, hent]
    · simp [FS.Remove, hge, hm, he, hd]

/-- Witness for C5 on a concrete tree: removing the file
`/tmp/xaaaaaaaa` behaves the same through both operations and detaches
the file, restoring the base tree. -/
theorem c5_removeAll_eq_remove_witness :
    FS.RemoveAll c6Tree1 ["tmp", "xaaaaaaaa"] =
        FS.Remove c6Tree1 ["tmp", "xaaaaaaaa"] ∧
    FS.Remove c6Tree1 ["tmp", "xaaaaaaaa"] = .ok rootBase := by
  refine ⟨c5_removeAll_eq_remove.1 c6Tree1 ["tmp", "xaaaaaaaa"], ?_⟩
  have h := c5_removeAll_eq_remove.2 c6Tree1 ["tmp", "xaaaaaaaa"]
    ⟨["tmp"], some c6File, []⟩ c6File rfl rfl rfl
  rw [h]
  rfl

end Memfs
